import Mathlib

/-!
Shallow embedding of the post store of `src/script.js` (ModernBlog).

The JavaScript source keeps a global array `posts` and mirrors it into
`localStorage` under the key `"blogPosts"` as a JSON string.  The embedding
models:

  - a `Post` record with the five string fields the code stores;
  - the persisted slot as `Option StoredString`, where a stored string is
    represented by its JSON parse outcome (`wellFormed j` stands for any
    string whose `JSON.parse` yields the value `j`, e.g. the output of
    `JSON.stringify` on `j`; `malformed s` stands for a raw string `s` that
    is not valid JSON, on which `JSON.parse` throws);
  - each handler of the source as a pure function from the application
    state and its inputs to the new state together with the list of side
    effects it performs (persistence writes and user notifications).

Nondeterministic inputs of the source (`Date.now()`, `new Date()`,
`Math.random()`) are passed as explicit parameters.
-/

namespace ModernBlog

/-- Record stored for each blog post; the five fields written by
`handlePostSubmit` in `src/script.js` (lines 305-311), all strings
(`createdAt` holds the ISO-8601 string from `toISOString`). -/
structure Post where
  id : String
  title : String
  category : String
  content : String
  createdAt : String
deriving DecidableEq, Repr

/-- JSON values, used to model the payload of the `"blogPosts"` slot of
`localStorage` (the code reads and writes it only through `JSON.parse` and
`JSON.stringify`). -/
inductive Json where
  | str (s : String)
  | num (n : Int)
  | bool (b : Bool)
  | null
  | arr (elems : List Json)
  | obj (fields : List (String × Json))
deriving Repr

/-- A string value persisted in `localStorage`, represented by its JSON
parse outcome: `wellFormed j` stands for any string parsed by `JSON.parse`
to the value `j` (in particular the output of `JSON.stringify j`), and
`malformed s` stands for the raw string `s` when it is not valid JSON
(`JSON.parse` throws a SyntaxError on it). -/
inductive StoredString where
  | wellFormed (j : Json)
  | malformed (s : String)

/-- JavaScript truthiness of a stored string: the empty string is falsy,
every other string is truthy (a string that is valid JSON is nonempty). -/
def StoredString.truthy : StoredString → Bool
  | .wellFormed _ => true
  | .malformed s => s ≠ ""

/-- Model of the platform builtin `JSON.parse` on a stored string: a
well-formed string yields its parse value, a malformed string throws. -/
def jsonParse : StoredString → Except String Json
  | .wellFormed j => Except.ok j
  | .malformed _ => Except.error "SyntaxError: Unexpected token"

/-- Model of the platform builtin `JSON.stringify` applied to a JSON
value: it produces a string whose parse outcome is that same value. -/
def jsonStringify (j : Json) : StoredString :=
  StoredString.wellFormed j

/-- JSON image of one post, with the object fields in the insertion order
of the literal at `src/script.js` lines 305-311. -/
def encodePost (p : Post) : Json :=
  Json.obj [("id", Json.str p.id), ("title", Json.str p.title),
    ("category", Json.str p.category), ("content", Json.str p.content),
    ("createdAt", Json.str p.createdAt)]

/-- JSON image of the whole collection, as serialized by `savePosts`. -/
def encodePosts (posts : List Post) : Json :=
  Json.arr (posts.map encodePost)

/-- Reading one post object back from its JSON image (the identification
of a parsed JSON object with the JavaScript post record). -/
def decodePost : Json → Option Post
  | Json.obj [("id", Json.str i), ("title", Json.str t),
      ("category", Json.str c), ("content", Json.str ct),
      ("createdAt", Json.str d)] =>
    some { id := i, title := t, category := c, content := ct, createdAt := d }
  | _ => none

/-- Reading a list of post objects back from their JSON images. -/
def decodePostList : List Json → Option (List Post)
  | [] => some []
  | j :: rest =>
    match decodePost j, decodePostList rest with
    | some p, some ps => some (p :: ps)
    | _, _ => none

/-- Reading a whole collection back from its JSON image. -/
def decodePosts : Json → Option (List Post)
  | Json.arr es => decodePostList es
  | _ => none

/-- The mutable state the source keeps: the global `posts` array and the
`"blogPosts"` slot of `localStorage` (`none` when no entry exists). -/
structure AppState where
  posts : List Post
  storage : Option StoredString

/-- Notification kinds of `showNotification` (`success`, `error`, `info`). -/
inductive NotifKind where
  | success
  | error
  | info
deriving DecidableEq, Repr

/-- Side effects a handler performs: a persistence write (`savePosts`) or
a call to `showNotification` with its kind and message. -/
inductive Eff where
  | save
  | notif (kind : NotifKind) (msg : String)
deriving DecidableEq, Repr

/-- Storage contents written by `savePosts` (`src/script.js` line 598):
the JSON serialization of the current in-memory collection. -/
def savePosts (posts : List Post) : Option StoredString :=
  some (jsonStringify (encodePosts posts))

/-- Embedding of `loadPosts` (`src/script.js` lines 192-194): the value
assigned to the global `posts`, namely `storedPosts ? JSON.parse(storedPosts)
: []`; an error value records that `JSON.parse` threw. -/
def loadPosts (stored : Option StoredString) : Except String Json :=
  match stored with
  | some s => if s.truthy then jsonParse s else Except.ok (Json.arr [])
  | none => Except.ok (Json.arr [])

/-- Embedding of `String.prototype.trim`: drops whitespace characters from
both ends of the string (modelled on the ASCII whitespace set of
`Char.isWhitespace`). -/
def jsTrim (s : String) : String :=
  String.mk (((s.data.dropWhile Char.isWhitespace).reverse.dropWhile
    Char.isWhitespace).reverse)

/-- Base-36 digit characters, as produced by `Number.prototype.toString(36)`
(digits `0`-`9` then letters `a`-`z`). -/
def base36Char (n : Nat) : Char :=
  if n < 10 then Char.ofNat (48 + n) else Char.ofNat (87 + n)

/-- Accumulator loop for the base-36 rendering of a natural number. -/
def natToBase36Aux (n : Nat) (acc : List Char) : List Char :=
  if h : n = 0 then acc
  else natToBase36Aux (n / 36) (base36Char (n % 36) :: acc)
termination_by n
decreasing_by
  exact Nat.div_lt_self (Nat.pos_of_ne_zero h) (by decide)

/-- Base-36 rendering of a natural number, as `n.toString(36)` does. -/
def natToBase36 (n : Nat) : String :=
  if n = 0 then "0" else String.mk (natToBase36Aux n [])

/-- Embedding of `generateUniqueId` (`src/script.js` lines 610-612):
`Date.now().toString(36) + Math.random().toString(36).substr(2, 5)`.
The millisecond clock reading and the five pseudo-random base-36
characters are explicit parameters. -/
def generateUniqueId (nowMs : Nat) (randSuffix : String) : String :=
  natToBase36 nowMs ++ randSuffix

/-- Embedding of the mutation part of `handlePostSubmit` (`src/script.js`
lines 279-334).  `rawTitle` and `rawContent` are trimmed where the code
trims them (lines 283, 285); the category select value is used untrimmed
(line 284).  Returns the new state and the effects performed. -/
def handlePostSubmit (s : AppState) (rawTitle rawCategory rawContent : String)
    (nowMs : Nat) (randSuffix : String) (nowIso : String) :
    AppState × List Eff :=
  let title := jsTrim rawTitle
  let category := rawCategory
  let content := jsTrim rawContent
  if title = "" ∨ category = "" ∨ content = "" then
    (s, [Eff.notif NotifKind.error "Please fill all fields"])
  else
    let newPost : Post :=
      { id := generateUniqueId nowMs randSuffix, title := title,
        category := category, content := content, createdAt := nowIso }
    let posts := newPost :: s.posts
    ({ posts := posts, storage := savePosts posts },
     [Eff.save, Eff.notif NotifKind.success "Post published successfully!"])

/-- Embedding of `Array.prototype.findIndex` on lists. -/
def jsFindIndex {α : Type} (p : α → Bool) : List α → Option Nat
  | [] => none
  | a :: rest => if p a then some 0 else (jsFindIndex p rest).map (· + 1)

/-- Fallback post used to totalize the in-bounds array read
`posts[postIndex]`; never reached when the index comes from a successful
`findIndex`. -/
def emptyPost : Post :=
  { id := "", title := "", category := "", content := "", createdAt := "" }

/-- Embedding of the mutation part of `handleEditSubmit` (`src/script.js`
lines 363-416).  Note the not-found branch (line 391) returns silently:
no notification, no write.  The category select value is untrimmed. -/
def handleEditSubmit (s : AppState) (postId rawTitle rawCategory rawContent : String) :
    AppState × List Eff :=
  let title := jsTrim rawTitle
  let category := rawCategory
  let content := jsTrim rawContent
  if title = "" ∨ category = "" ∨ content = "" then
    (s, [Eff.notif NotifKind.error "Please fill all fields"])
  else
    match jsFindIndex (fun p => p.id == postId) s.posts with
    | none => (s, [])
    | some i =>
      let old := s.posts.getD i emptyPost
      let posts := s.posts.set i
        { old with title := title, category := category, content := content }
      ({ posts := posts, storage := savePosts posts },
       [Eff.save, Eff.notif NotifKind.success "Post updated successfully!"])

/-- Embedding of `deletePost` (`src/script.js` lines 431-440): filters out
every post whose id matches, persists, and unconditionally reports
success; the function returns no value. -/
def deletePost (s : AppState) (postId : String) : AppState × List Eff :=
  let posts := s.posts.filter (fun post => post.id != postId)
  ({ posts := posts, storage := savePosts posts },
   [Eff.save, Eff.notif NotifKind.success "Post deleted successfully!"])

/-- Case folding as `String.prototype.toLowerCase` does on ASCII text
(the model maps each character through `Char.toLower`). -/
def jsToLowerCase (s : String) : String :=
  String.mk (s.data.map Char.toLower)

/-- Embedding of `String.prototype.includes`: substring containment. -/
def jsIncludes (hay needle : String) : Bool :=
  decide (List.IsInfix needle.data hay.data)

/-- Embedding of the filtering part of `searchPosts` (`src/script.js`
lines 445-456): the sequence of posts displayed for a raw search box
value (when no post matches the code renders an empty result panel, which
corresponds to the empty sequence here). -/
def searchPosts (posts : List Post) (rawTerm : String) : List Post :=
  let searchTerm := jsToLowerCase (jsTrim rawTerm)
  if searchTerm = "" then posts
  else posts.filter (fun post =>
    jsIncludes (jsToLowerCase post.title) searchTerm ||
    jsIncludes (jsToLowerCase post.content) searchTerm)

/-- One store mutation, with the nondeterministic inputs of a create
passed explicitly. -/
inductive Op where
  | create (title category content : String) (nowMs : Nat) (randSuffix : String) (nowIso : String)
  | update (postId title category content : String)
  | del (postId : String)

/-- Applying one mutation to the state. -/
def applyOp (s : AppState) : Op → AppState × List Eff
  | Op.create t c ct ms rd iso => handlePostSubmit s t c ct ms rd iso
  | Op.update pid t c ct => handleEditSubmit s pid t c ct
  | Op.del pid => deletePost s pid

/-- Applying a sequence of mutations, keeping the final state. -/
def applyOps (s : AppState) : List Op → AppState
  | [] => s
  | op :: rest => applyOps (applyOp s op).1 rest

/-- Post `a` of the two-post scenario of spec section 8. -/
def postA : Post :=
  { id := "a", title := "Hello World", category := "Tech", content := "foo",
    createdAt := "t1" }

/-- Post `b` of the two-post scenario of spec section 8 (inserted after
`a`, hence first in the newest-first collection). -/
def postB : Post :=
  { id := "b", title := "Cooking", category := "Food", content := "bar",
    createdAt := "t2" }

/-- Post whose title contains `foo` with no surrounding spaces; used to
separate matching on the raw search term from matching on the trimmed
search term. -/
def pFoox : Post :=
  { id := "a", title := "foox", category := "Tech", content := "x",
    createdAt := "t1" }

/-- Post whose id happens to equal the string `generateUniqueId` produces
at millisecond clock reading 1760227200000 with random suffix `abcde`. -/
def clashPost : Post :=
  { id := "mgmxts00abcde", title := "old", category := "Tech", content := "x",
    createdAt := "t0" }

/-- C1 counterexample: a persisted entry that is present but not valid
JSON does not load as the empty sequence; `JSON.parse` throws and
`loadPosts` propagates the error, contradicting the claim that malformed
persisted data yields the empty sequence and that loading never raises a
fatal error. -/
theorem loadPosts_raises_on_malformed :
    loadPosts (some (StoredString.malformed "not json")) =
      Except.error "SyntaxError: Unexpected token" ∧
    (loadPosts (some (StoredString.malformed "not json"))).isOk = false :=
  ⟨rfl, rfl⟩

/-- C1 amended: when no persisted entry exists (or the stored string is
empty, hence falsy), `loadPosts` yields the empty collection; when the
entry parses as JSON the parsed value is installed verbatim, with no
validation of its shape; when the entry is nonempty and not valid JSON,
`JSON.parse` throws and the load fails instead of recovering to the empty
collection. -/
theorem loadPosts_spec :
    loadPosts none = Except.ok (Json.arr []) ∧
    (∀ j, loadPosts (some (StoredString.wellFormed j)) = Except.ok j) ∧
    loadPosts (some (StoredString.malformed "")) = Except.ok (Json.arr []) ∧
    ∀ s, s ≠ "" → loadPosts (some (StoredString.malformed s)) =
      Except.error "SyntaxError: Unexpected token" := by
  refine ⟨rfl, fun j => rfl, rfl, fun s hs => ?_⟩
  simp [loadPosts, StoredString.truthy, jsonParse, hs]

/-- Witness for the amended C1 theorem at the concrete malformed entry
`"not json"`. -/
theorem loadPosts_spec_witness :
    ("not json" : String) ≠ "" ∧
    loadPosts (some (StoredString.malformed "not json")) =
      Except.error "SyntaxError: Unexpected token" :=
  ⟨by decide, loadPosts_spec.2.2.2 "not json" (by decide)⟩

/-- C5 counterexample: updating the absent id `zzz` with valid fields
leaves the state untouched and performs no effect at all, in particular
no notification and no distinct not-found signal; the source returns
silently from the not-found branch, contradicting the claim that update
signals a distinct not-found condition rather than silently no-oping. -/
theorem update_missing_id_silent :
    handleEditSubmit { posts := [postA], storage := savePosts [postA] }
        "zzz" "New Title" "Tech" "new content" =
      ({ posts := [postA], storage := savePosts [postA] }, ([] : List Eff)) :=
  rfl

/-- C5 amended: updating an id absent from the collection is a silent
no-op: the in-memory collection and the persisted state are unchanged and
no effect is performed, neither a persistence write nor any notification
that could signal the not-found condition. -/
theorem handleEditSubmit_missing_id_noop (s : AppState)
    (postId rawTitle rawCategory rawContent : String)
    (hv : ¬(jsTrim rawTitle = "" ∨ rawCategory = "" ∨ jsTrim rawContent = ""))
    (hfind : jsFindIndex (fun p => p.id == postId) s.posts = none) :
    handleEditSubmit s postId rawTitle rawCategory rawContent = (s, []) := by
  simp only [handleEditSubmit]
  rw [if_neg hv, hfind]

/-- Witness for the amended C5 theorem: a concrete one-post state and the
absent id `zzz`. -/
theorem handleEditSubmit_missing_id_noop_witness :
    (¬(jsTrim "New Title" = "" ∨ ("Tech" : String) = "" ∨
        jsTrim "new content" = "")) ∧
    jsFindIndex (fun p => p.id == "zzz") [postA] = none ∧
    handleEditSubmit { posts := [postA], storage := none }
        "zzz" "New Title" "Tech" "new content" =
      ({ posts := [postA], storage := none }, ([] : List Eff)) :=
  ⟨by decide, by decide,
    handleEditSubmit_missing_id_noop { posts := [postA], storage := none }
      "zzz" "New Title" "Tech" "new content" (by decide) (by decide)⟩

/-- C6 counterexample: a category consisting of one space is empty after
trimming, yet `handlePostSubmit` accepts it and mutates: the post is
inserted with the blank category and a persistence write and a success
notification are performed, contradicting the claim that any field empty
after trimming is rejected before any store mutation (the source checks
the category select value untrimmed). -/
theorem create_accepts_blank_category :
    jsTrim " " = "" ∧
    (handlePostSubmit { posts := [], storage := none } "t" " " "c" 0 "x"
        "t1").1.posts =
      [{ id := "0x", title := "t", category := " ", content := "c",
         createdAt := "t1" }] ∧
    (handlePostSubmit { posts := [], storage := none } "t" " " "c" 0 "x"
        "t1").2 =
      [Eff.save, Eff.notif NotifKind.success "Post published successfully!"] :=
  ⟨rfl, rfl, rfl⟩

/-- C6 amended: a submission is rejected with a validation error before
any store mutation when the title or the content is empty after trimming,
or when the category is empty untrimmed (the source does not trim the
category select value); in that case both create and update leave the
in-memory collection and the persisted state unchanged and only the
validation notification is emitted, so no mutation partially applies. -/
theorem validation_error_before_mutation (s : AppState)
    (postId rawTitle rawCategory rawContent : String)
    (nowMs : Nat) (randSuffix nowIso : String)
    (h : jsTrim rawTitle = "" ∨ rawCategory = "" ∨ jsTrim rawContent = "") :
    handlePostSubmit s rawTitle rawCategory rawContent nowMs randSuffix
        nowIso =
      (s, [Eff.notif NotifKind.error "Please fill all fields"]) ∧
    handleEditSubmit s postId rawTitle rawCategory rawContent =
      (s, [Eff.notif NotifKind.error "Please fill all fields"]) := by
  constructor
  · simp only [handlePostSubmit]
    rw [if_pos h]
  · simp only [handleEditSubmit]
    rw [if_pos h]

/-- Witness for the amended C6 theorem: a blank title on a concrete
one-post state. -/
theorem validation_error_before_mutation_witness :
    (jsTrim "  " = "" ∨ ("Tech" : String) = "" ∨ jsTrim "body" = "") ∧
    handlePostSubmit { posts := [postA], storage := none } "  " "Tech"
        "body" 0 "x" "t1" =
      ({ posts := [postA], storage := none },
       [Eff.notif NotifKind.error "Please fill all fields"]) ∧
    handleEditSubmit { posts := [postA], storage := none } "a" "  " "Tech"
        "body" =
      ({ posts := [postA], storage := none },
       [Eff.notif NotifKind.error "Please fill all fields"]) := by
  refine ⟨Or.inl (by decide), ?_⟩
  exact validation_error_before_mutation { posts := [postA], storage := none }
    "a" "  " "Tech" "body" 0 "x" "t1" (Or.inl (by decide))

/-- C7 counterexample: deleting the absent id `zzz` removes nothing, yet
the operation produces exactly the same effects as a successful removal:
a persistence write and the unconditional success notification; the
source `deletePost` has no return statement, so no boolean stating
whether a removal occurred is returned and the not-found case is not
reported as a benign false. -/
theorem delete_reports_success_when_absent :
    (deletePost { posts := [postA], storage := none } "zzz").1.posts =
      [postA] ∧
    (deletePost { posts := [postA], storage := none } "zzz").2 =
      [Eff.save, Eff.notif NotifKind.success "Post deleted successfully!"] ∧
    (deletePost { posts := [postA], storage := none } "zzz").2 =
      (deletePost { posts := [postA], storage := none } "a").2 :=
  ⟨rfl, rfl, rfl⟩

/-- C7 amended: `deletePost` removes every matching post and persists,
returning no removal indicator (it unconditionally reports success);
calling it twice in a row with the same id is still idempotent in effect:
the second call leaves the collection, the persisted state and even the
produced effects exactly as after the first call. -/
theorem deletePost_effect_idempotent (s : AppState) (postId : String) :
    (deletePost (deletePost s postId).1 postId).1.posts =
      (deletePost s postId).1.posts ∧
    (deletePost (deletePost s postId).1 postId).1.storage =
      (deletePost s postId).1.storage ∧
    (deletePost (deletePost s postId).1 postId).2 =
      (deletePost s postId).2 := by
  have hposts : (s.posts.filter (fun post => post.id != postId)).filter
      (fun post => post.id != postId) =
      s.posts.filter (fun post => post.id != postId) :=
    List.filter_eq_self.mpr (fun a ha => (List.mem_filter.mp ha).2)
  refine ⟨hposts, ?_, rfl⟩
  show savePosts ((s.posts.filter _).filter _) = savePosts (s.posts.filter _)
  rw [hposts]

/-- C10: deleting an id removes every post whose id matches (the source
filters the whole array, so even several posts sharing that id all go),
keeps every non-matching post with its fields and relative order (the
result is the order-preserving filter of the collection, a sublist of
it), and persists the resulting collection on every call, including when
nothing was removed. -/
theorem deletePost_removes_every_match (s : AppState) (postId : String)
    (p : Post) (hp : p ∈ (deletePost s postId).1.posts) :
    p.id ≠ postId ∧
    (deletePost s postId).1.posts =
      s.posts.filter (fun post => post.id != postId) ∧
    (deletePost s postId).1.posts.Sublist s.posts ∧
    (deletePost s postId).1.storage =
      savePosts (deletePost s postId).1.posts := by
  refine ⟨?_, rfl, List.filter_sublist s.posts, rfl⟩
  have hmem : p ∈ s.posts.filter (fun post => post.id != postId) := hp
  have := (List.mem_filter.mp hmem).2
  simpa using this

/-- Witness for the C10 theorem: deleting post `a` from the two-post
scenario collection, with surviving post `b`. -/
theorem deletePost_removes_every_match_witness :
    postB ∈ (deletePost { posts := [postB, postA], storage := none }
      "a").1.posts ∧
    (postB.id ≠ "a" ∧
      (deletePost { posts := [postB, postA], storage := none } "a").1.posts =
        [postB, postA].filter (fun post => post.id != "a") ∧
      (deletePost { posts := [postB, postA], storage := none }
        "a").1.posts.Sublist [postB, postA] ∧
      (deletePost { posts := [postB, postA], storage := none } "a").1.storage =
        savePosts (deletePost { posts := [postB, postA], storage := none }
          "a").1.posts) :=
  ⟨by decide,
    deletePost_removes_every_match { posts := [postB, postA], storage := none }
      "a" postB (by decide)⟩

/-- Decoding a list of encoded posts recovers the list. -/
theorem decodePostList_encode (l : List Post) :
    decodePostList (l.map encodePost) = some l := by
  induction l with
  | nil => rfl
  | cons p rest ih => simp [decodePostList, encodePost, decodePost, ih]

/-- Decoding the serialized collection recovers every post, in order,
with all five fields intact. -/
theorem decodePosts_encodePosts (l : List Post) :
    decodePosts (encodePosts l) = some l := by
  simp [decodePosts, encodePosts, decodePostList_encode]

/-- Any mutation that performs a persistence write leaves the storage
holding exactly the serialization of the current in-memory collection. -/
theorem applyOp_save_synced (s : AppState) (op : Op)
    (h : Eff.save ∈ (applyOp s op).2) :
    (applyOp s op).1.storage = savePosts (applyOp s op).1.posts := by
  cases op with
  | create t c ct ms rd iso =>
    by_cases hv : jsTrim t = "" ∨ c = "" ∨ jsTrim ct = ""
    · exfalso
      simp only [applyOp, handlePostSubmit] at h
      rw [if_pos hv] at h
      simp at h
    · simp only [applyOp, handlePostSubmit]
      rw [if_neg hv]
  | update pid t c ct =>
    by_cases hv : jsTrim t = "" ∨ c = "" ∨ jsTrim ct = ""
    · exfalso
      simp only [applyOp, handleEditSubmit] at h
      rw [if_pos hv] at h
      simp at h
    · cases hfind : jsFindIndex (fun p => p.id == pid) s.posts with
      | none =>
        exfalso
        simp only [applyOp, handleEditSubmit] at h
        rw [if_neg hv, hfind] at h
        simp at h
      | some i =>
        simp only [applyOp, handleEditSubmit]
        rw [if_neg hv, hfind]
  | del pid => rfl

/-- C3: after any sequence of mutations, if the last mutation performed a
persistence write, then loading from the persisted state succeeds and
reproduces exactly the in-memory collection at that moment: the parsed
value is the serialization of the current collection and decoding it
yields the same posts, with length, order and every field preserved. -/
theorem load_after_mutation_roundtrip (s₀ : AppState) (ops : List Op)
    (op : Op)
    (hsave : Eff.save ∈ (applyOp (applyOps s₀ ops) op).2) :
    loadPosts (applyOp (applyOps s₀ ops) op).1.storage =
      Except.ok (encodePosts (applyOp (applyOps s₀ ops) op).1.posts) ∧
    decodePosts (encodePosts (applyOp (applyOps s₀ ops) op).1.posts) =
      some (applyOp (applyOps s₀ ops) op).1.posts := by
  have hs := applyOp_save_synced (applyOps s₀ ops) op hsave
  refine ⟨?_, decodePosts_encodePosts _⟩
  rw [hs]
  rfl

/-- Witness for the C3 theorem: a create followed by a delete on the
initially empty state. -/
theorem load_after_mutation_roundtrip_witness :
    Eff.save ∈ (applyOp (applyOps { posts := [], storage := none } [])
      (Op.del "zzz")).2 ∧
    (loadPosts (applyOp (applyOps { posts := [], storage := none } [])
        (Op.del "zzz")).1.storage =
      Except.ok (encodePosts (applyOp (applyOps { posts := [], storage := none }
        []) (Op.del "zzz")).1.posts) ∧
    decodePosts (encodePosts (applyOp (applyOps { posts := [], storage := none }
        []) (Op.del "zzz")).1.posts) =
      some (applyOp (applyOps { posts := [], storage := none } [])
        (Op.del "zzz")).1.posts) :=
  ⟨by decide,
    load_after_mutation_roundtrip { posts := [], storage := none } []
      (Op.del "zzz") (by decide)⟩

/-- A successful `findIndex` yields an index inside the array. -/
theorem jsFindIndex_lt_length {α : Type} (p : α → Bool) (l : List α)
    (i : Nat) (h : jsFindIndex p l = some i) : i < l.length := by
  induction l generalizing i with
  | nil => simp [jsFindIndex] at h
  | cons a rest ih =>
    simp only [jsFindIndex] at h
    by_cases hp : p a
    · rw [if_pos hp] at h
      injection h with h0
      subst h0
      simp
    · rw [if_neg hp] at h
      cases hr : jsFindIndex p rest with
      | none => rw [hr] at h; simp at h
      | some j =>
        rw [hr] at h
        have hsome : some (j + 1) = some i := h
        injection hsome with h0
        subst h0
        have := ih j hr
        simpa using Nat.succ_lt_succ this

/-- A successful `findIndex` finds an element satisfying the predicate. -/
theorem jsFindIndex_found {α : Type} (p : α → Bool) (l : List α) (i : Nat)
    (h : jsFindIndex p l = some i) (hi : i < l.length) :
    p (l.get ⟨i, hi⟩) = true := by
  induction l generalizing i with
  | nil => simp [jsFindIndex] at h
  | cons a rest ih =>
    simp only [jsFindIndex] at h
    by_cases hp : p a
    · rw [if_pos hp] at h
      injection h with h0
      subst h0
      simpa using hp
    · rw [if_neg hp] at h
      cases hr : jsFindIndex p rest with
      | none => rw [hr] at h; simp at h
      | some j =>
        rw [hr] at h
        have hsome : some (j + 1) = some i := h
        injection hsome with h0
        subst h0
        exact ih j hr (by simpa using Nat.lt_of_succ_lt_succ hi)

/-- C4: when the collection holds a post with the given id (located by
`findIndex` at position `i`) and the input fields are valid, update
rewrites exactly that position: the element there keeps its id and its
createdAt and takes the submitted title, category and content; every
other position is untouched; the length is unchanged; the resulting
collection is persisted and the success notification is shown. -/
theorem handleEditSubmit_updates_in_place (s : AppState)
    (postId rawTitle rawCategory rawContent : String) (i : Nat)
    (ht : jsTrim rawTitle ≠ "") (hc : jsTrim rawCategory ≠ "")
    (hct : jsTrim rawContent ≠ "")
    (hfind : jsFindIndex (fun p => p.id == postId) s.posts = some i) :
    (handleEditSubmit s postId rawTitle rawCategory rawContent).1.posts.length
      = s.posts.length ∧
    (∀ j, j ≠ i →
      (handleEditSubmit s postId rawTitle rawCategory
        rawContent).1.posts[j]? = s.posts[j]?) ∧
    (∃ old, s.posts[i]? = some old ∧ old.id = postId ∧
      (handleEditSubmit s postId rawTitle rawCategory
          rawContent).1.posts[i]? =
        some { id := old.id, title := jsTrim rawTitle,
               category := rawCategory, content := jsTrim rawContent,
               createdAt := old.createdAt }) ∧
    (handleEditSubmit s postId rawTitle rawCategory rawContent).1.storage =
      savePosts
        (handleEditSubmit s postId rawTitle rawCategory rawContent).1.posts ∧
    (handleEditSubmit s postId rawTitle rawCategory rawContent).2 =
      [Eff.save, Eff.notif NotifKind.success "Post updated successfully!"] := by
  have hcraw : rawCategory ≠ "" := fun hh => hc (by rw [hh]; rfl)
  have hv : ¬(jsTrim rawTitle = "" ∨ rawCategory = "" ∨
      jsTrim rawContent = "") := by
    intro hh
    rcases hh with hh | hh | hh
    · exact ht hh
    · exact hcraw hh
    · exact hct hh
  have hi := jsFindIndex_lt_length _ _ _ hfind
  have hres : handleEditSubmit s postId rawTitle rawCategory rawContent =
      (({ posts := s.posts.set i
            { s.posts.getD i emptyPost with
                title := jsTrim rawTitle,
                category := rawCategory,
                content := jsTrim rawContent },
          storage := savePosts (s.posts.set i
            { s.posts.getD i emptyPost with
                title := jsTrim rawTitle,
                category := rawCategory,
                content := jsTrim rawContent }) } : AppState),
       [Eff.save, Eff.notif NotifKind.success "Post updated successfully!"]) := by
    simp only [handleEditSubmit]
    rw [if_neg hv, hfind]
  have hgetD : s.posts.getD i emptyPost = s.posts.get ⟨i, hi⟩ :=
    List.getD_eq_getElem s.posts emptyPost hi
  have hid : (s.posts.get ⟨i, hi⟩).id = postId := by
    have := jsFindIndex_found _ _ _ hfind hi
    simpa using this
  rw [hres]
  refine ⟨by simp, ?_, ?_, rfl, rfl⟩
  · intro j hj
    exact List.getElem?_set_ne (fun hh => hj hh.symm)
  · refine ⟨s.posts.get ⟨i, hi⟩, List.getElem?_eq_getElem hi, hid, ?_⟩
    rw [List.getElem?_set_self (by simpa using hi)]
    rw [hgetD]

/-- Witness for the C4 theorem: editing post `a` of the two-post scenario
collection, located at index 1. -/
theorem handleEditSubmit_updates_in_place_witness :
    jsTrim "New Title" ≠ "" ∧ jsTrim "Tech" ≠ "" ∧
    jsTrim "new content" ≠ "" ∧
    jsFindIndex (fun p => p.id == "a") [postB, postA] = some 1 ∧
    ((handleEditSubmit { posts := [postB, postA], storage := none } "a"
        "New Title" "Tech" "new content").1.posts.length =
      ([postB, postA] : List Post).length ∧
    (∀ j, j ≠ 1 →
      (handleEditSubmit { posts := [postB, postA], storage := none } "a"
        "New Title" "Tech" "new content").1.posts[j]? =
        ([postB, postA] : List Post)[j]?) ∧
    (∃ old, ([postB, postA] : List Post)[1]? = some old ∧ old.id = "a" ∧
      (handleEditSubmit { posts := [postB, postA], storage := none } "a"
          "New Title" "Tech" "new content").1.posts[1]? =
        some { id := old.id, title := jsTrim "New Title",
               category := "Tech", content := jsTrim "new content",
               createdAt := old.createdAt }) ∧
    (handleEditSubmit { posts := [postB, postA], storage := none } "a"
        "New Title" "Tech" "new content").1.storage =
      savePosts (handleEditSubmit { posts := [postB, postA], storage := none }
        "a" "New Title" "Tech" "new content").1.posts ∧
    (handleEditSubmit { posts := [postB, postA], storage := none } "a"
        "New Title" "Tech" "new content").2 =
      [Eff.save, Eff.notif NotifKind.success "Post updated successfully!"]) :=
  ⟨by decide, by decide, by decide, by decide,
    handleEditSubmit_updates_in_place
      { posts := [postB, postA], storage := none } "a" "New Title" "Tech"
      "new content" 1 (by decide) (by decide) (by decide) (by decide)⟩

/-- C2 counterexample: the generated id is not checked against the ids
already in the collection.  At clock reading 1760227200000 with random
suffix `abcde`, creating a post in a collection that already holds a post
with id `mgmxts00abcde` inserts a duplicate id, contradicting the claim
that the new id is distinct from every id already in the collection; the
same run also shows the stored title is the trimmed input (` Hello `
becomes `Hello`), not the raw input. -/
theorem create_duplicate_id_possible :
    ((handlePostSubmit { posts := [clashPost], storage := none } " Hello "
        "Tech" "hi" 1760227200000 "abcde" "t1").1.posts.map
      (fun p => p.id)) = ["mgmxts00abcde", "mgmxts00abcde"] ∧
    ((handlePostSubmit { posts := [clashPost], storage := none } " Hello "
        "Tech" "hi" 1760227200000 "abcde" "t1").1.posts.map
      (fun p => p.title)) = ["Hello", "old"] := by
  have hv : ¬(jsTrim " Hello " = "" ∨ ("Tech" : String) = "" ∨
      jsTrim "hi" = "") := by decide
  have hid : generateUniqueId 1760227200000 "abcde" = "mgmxts00abcde" := by
    simp [generateUniqueId, natToBase36, natToBase36Aux, base36Char]
  constructor
  · simp only [handlePostSubmit]
    rw [if_neg hv]
    simp [hid, clashPost]
  · simp only [handlePostSubmit]
    rw [if_neg hv]
    decide

/-- C2 amended: for valid inputs, create builds a post whose title and
content are the trimmed inputs and whose category is the raw input, whose
id is the output of `generateUniqueId` (base-36 clock reading plus random
suffix, generated without consulting the collection) and whose createdAt
is the current time; the post is prepended to the collection, the rest of
the collection is unchanged (shifted by one), and the full collection is
persisted; the generated id is distinct from every existing id only when
it does not already occur among them, since no uniqueness check is
performed. -/
theorem handlePostSubmit_creates (s : AppState)
    (rawTitle rawCategory rawContent : String) (nowMs : Nat)
    (randSuffix nowIso : String)
    (ht : jsTrim rawTitle ≠ "") (hc : jsTrim rawCategory ≠ "")
    (hct : jsTrim rawContent ≠ "") :
    (handlePostSubmit s rawTitle rawCategory rawContent nowMs randSuffix
        nowIso).1.posts =
      { id := generateUniqueId nowMs randSuffix, title := jsTrim rawTitle,
        category := rawCategory, content := jsTrim rawContent,
        createdAt := nowIso } :: s.posts ∧
    (handlePostSubmit s rawTitle rawCategory rawContent nowMs randSuffix
        nowIso).1.storage =
      savePosts (handlePostSubmit s rawTitle rawCategory rawContent nowMs
        randSuffix nowIso).1.posts ∧
    (handlePostSubmit s rawTitle rawCategory rawContent nowMs randSuffix
        nowIso).2 =
      [Eff.save, Eff.notif NotifKind.success "Post published successfully!"] ∧
    (generateUniqueId nowMs randSuffix ∉ s.posts.map (fun p => p.id) →
      ∀ p ∈ s.posts, generateUniqueId nowMs randSuffix ≠ p.id) := by
  have hcraw : rawCategory ≠ "" := fun hh => hc (by rw [hh]; rfl)
  have hv : ¬(jsTrim rawTitle = "" ∨ rawCategory = "" ∨
      jsTrim rawContent = "") := by
    intro hh
    rcases hh with hh | hh | hh
    · exact ht hh
    · exact hcraw hh
    · exact hct hh
  have hres : handlePostSubmit s rawTitle rawCategory rawContent nowMs
      randSuffix nowIso =
      (({ posts :=
            { id := generateUniqueId nowMs randSuffix,
              title := jsTrim rawTitle,
              category := rawCategory,
              content := jsTrim rawContent,
              createdAt := nowIso } :: s.posts,
          storage := savePosts
            ({ id := generateUniqueId nowMs randSuffix,
               title := jsTrim rawTitle,
               category := rawCategory,
               content := jsTrim rawContent,
               createdAt := nowIso } :: s.posts) } : AppState),
       [Eff.save,
        Eff.notif NotifKind.success "Post published successfully!"]) := by
    simp only [handlePostSubmit]
    rw [if_neg hv]
  rw [hres]
  refine ⟨rfl, rfl, rfl, ?_⟩
  intro hfresh p hp heq
  exact hfresh (List.mem_map.mpr ⟨p, hp, heq.symm⟩)

/-- Witness for the amended C2 theorem: creating a post on the two-post
scenario state, with a fresh id generated at clock reading 0. -/
theorem handlePostSubmit_creates_witness :
    jsTrim "New Post" ≠ "" ∧ jsTrim "Tech" ≠ "" ∧ jsTrim "body" ≠ "" ∧
    ((handlePostSubmit { posts := [postB, postA], storage := none }
        "New Post" "Tech" "body" 0 "fghij" "t3").1.posts =
      { id := generateUniqueId 0 "fghij", title := jsTrim "New Post",
        category := "Tech", content := jsTrim "body",
        createdAt := "t3" } :: [postB, postA] ∧
    (handlePostSubmit { posts := [postB, postA], storage := none }
        "New Post" "Tech" "body" 0 "fghij" "t3").1.storage =
      savePosts (handlePostSubmit { posts := [postB, postA], storage := none }
        "New Post" "Tech" "body" 0 "fghij" "t3").1.posts ∧
    (handlePostSubmit { posts := [postB, postA], storage := none }
        "New Post" "Tech" "body" 0 "fghij" "t3").2 =
      [Eff.save, Eff.notif NotifKind.success "Post published successfully!"] ∧
    (generateUniqueId 0 "fghij" ∉
        ([postB, postA] : List Post).map (fun p => p.id) →
      ∀ p ∈ ([postB, postA] : List Post),
        generateUniqueId 0 "fghij" ≠ p.id)) :=
  ⟨by decide, by decide, by decide,
    handlePostSubmit_creates { posts := [postB, postA], storage := none }
      "New Post" "Tech" "body" 0 "fghij" "t3" (by decide) (by decide)
      (by decide)⟩

/-- Case folding yields the empty string only on the empty string. -/
theorem jsToLowerCase_eq_empty_iff (t : String) :
    jsToLowerCase t = "" ↔ t = "" := by
  cases t with
  | mk data =>
    constructor
    · intro h
      have hdata : data.map Char.toLower = [] := congrArg String.data h
      have : data = [] := by simpa using hdata
      rw [this]
    · intro h
      rw [h]
      rfl

/-- C8 counterexample: the source matches against the trimmed search
term, not the raw term.  For the term ` foo ` and a post titled `foox`,
the post is returned even though neither its case-folded title nor its
case-folded content contains the case-folded raw term ` foo ` as a
substring, contradicting the claimed membership criterion. -/
theorem search_uses_trimmed_term :
    searchPosts [pFoox] " foo " = [pFoox] ∧
    jsIncludes (jsToLowerCase pFoox.title) (jsToLowerCase " foo ") = false ∧
    jsIncludes (jsToLowerCase pFoox.content) (jsToLowerCase " foo ") =
      false := by
  refine ⟨by decide, by decide, by decide⟩

/-- C8 amended: when the term trimmed is empty, search returns the posts
unchanged; otherwise it returns the order-preserving subsequence (a
sublist of the input, which is never mutated) of the posts whose
case-folded title or case-folded content contains the case-folded trimmed
term as a substring. -/
theorem searchPosts_spec (posts : List Post) (rawTerm : String) :
    (jsTrim rawTerm = "" → searchPosts posts rawTerm = posts) ∧
    (searchPosts posts rawTerm).Sublist posts ∧
    (jsTrim rawTerm ≠ "" → ∀ p, p ∈ searchPosts posts rawTerm ↔
      p ∈ posts ∧ (jsIncludes (jsToLowerCase p.title)
          (jsToLowerCase (jsTrim rawTerm)) = true ∨
        jsIncludes (jsToLowerCase p.content)
          (jsToLowerCase (jsTrim rawTerm)) = true)) := by
  by_cases h : jsTrim rawTerm = ""
  · have hempty : jsToLowerCase (jsTrim rawTerm) = "" := by rw [h]; rfl
    have hres : searchPosts posts rawTerm = posts := by
      simp only [searchPosts]
      rw [if_pos hempty]
    refine ⟨fun _ => hres, ?_, fun hne => absurd h hne⟩
    rw [hres]
  · have hne2 : jsToLowerCase (jsTrim rawTerm) ≠ "" :=
      fun hh => h ((jsToLowerCase_eq_empty_iff _).mp hh)
    have hres : searchPosts posts rawTerm = posts.filter (fun post =>
        jsIncludes (jsToLowerCase post.title)
          (jsToLowerCase (jsTrim rawTerm)) ||
        jsIncludes (jsToLowerCase post.content)
          (jsToLowerCase (jsTrim rawTerm))) := by
      simp only [searchPosts]
      rw [if_neg hne2]
    refine ⟨fun hh => absurd hh h, ?_, fun _ p => ?_⟩
    · rw [hres]
      exact List.filter_sublist posts
    · rw [hres, List.mem_filter]
      simp [Bool.or_eq_true]

/-- Witness for the amended C8 theorem: the term `FOO` (case-folded to
`foo`) matches the post titled `foox`. -/
theorem searchPosts_spec_witness :
    jsTrim "FOO" ≠ "" ∧
    (pFoox ∈ searchPosts [pFoox] "FOO" ↔
      pFoox ∈ [pFoox] ∧ (jsIncludes (jsToLowerCase pFoox.title)
          (jsToLowerCase (jsTrim "FOO")) = true ∨
        jsIncludes (jsToLowerCase pFoox.content)
          (jsToLowerCase (jsTrim "FOO")) = true)) :=
  ⟨by decide, (searchPosts_spec [pFoox] "FOO").2.2 (by decide) pFoox⟩

end ModernBlog
